import Mathlib

/-!
# Verification of the energy-PDF-report statistics core

Shallow embedding of the statistics aggregation and energy-balance
reconciliation engine of `custom_components/energy_pdf_report/__init__.py`:

* the period resolver (`_resolve_period`, `_select_bucket`, `_localize_date`),
* the source-configuration walker (`_build_metrics`),
* the totals aggregator (`_calculate_totals`),
* the energy-balance reconciler (`_prepare_conclusion_summary`).

Modelling conventions:

* Python `float` values are modelled as `ℚ` (the claims are exact arithmetic
  identities: sums, differences, clamps).
* Python `dict` objects are modelled as association lists with
  insert-or-update (`dictSet`) and lookup (`dictGet`) semantics.
* Python `datetime.date` is modelled by `PyDate` (year/month/day over `ℤ`);
  `date.toordinal` is modelled by `PyDate.toOrdinal` (proleptic Gregorian,
  0001-01-01 ↦ 1) and Python date comparison, which coincides with ordinal
  comparison, is modelled by comparing ordinals.
* Aware `datetime` values are modelled by their absolute instant in seconds;
  the timezone is a fixed UTC offset `off` in seconds, so local midnight of a
  date `d` is the instant `d.toOrdinal * 86400 - off` and `dt_util.as_utc` is
  the identity on instants.  (DST transitions are outside this model.)
-/

set_option maxHeartbeats 1000000

namespace EnergyPdfReport

/-- Dataclass `MetricDefinition`: one tracked statistic tagged with a
human-facing category label. -/
structure MetricDefinition where
  category : String
  statistic_id : String
deriving DecidableEq, Repr

/-- A recorder statistics row (`StatisticsRow`); the aggregator only reads the
optional `change` field, the cumulative `sum` field is carried for fidelity.
The bucket-start timestamp is not consulted by the modelled code. -/
structure StatisticsRow where
  change : Option ℚ
  total_sum : Option ℚ
deriving DecidableEq, Repr

/-- Python-dict update `m[k] = v`: replace the binding of `k` when present,
otherwise append it. -/
def dictSet {α : Type} (m : List (String × α)) (k : String) (v : α) :
    List (String × α) :=
  match m with
  | [] => [(k, v)]
  | (k', v') :: rest =>
      if k' = k then (k, v) :: rest else (k', v') :: dictSet rest k v

/-- Python-dict lookup `m.get(k)`. -/
def dictGet {α : Type} (m : List (String × α)) (k : String) : Option α :=
  match m with
  | [] => none
  | (k', v) :: rest => if k' = k then some v else dictGet rest k

/-- Accumulate one row of the inner loop of `_calculate_totals`: skip a `None`
change, otherwise record that a change was seen and add it. -/
def changeStep (acc : Bool × ℚ) (row : StatisticsRow) : Bool × ℚ :=
  match row.change with
  | none => acc
  | some c => (true, acc.2 + c)

/-- Body of the outer loop of `_calculate_totals` for one `(identifier, rows)`
entry: skip empty row lists, sum the non-null changes, and overwrite the
total of the identifier only when a non-null change was seen. -/
def totalsStep (t : List (String × ℚ)) (p : String × List StatisticsRow) :
    List (String × ℚ) :=
  if p.2 = [] then t
  else
    let r := p.2.foldl changeStep (false, 0)
    if r.1 then dictSet t p.1 r.2 else t

/-- Model of `_calculate_totals(metrics, stats)`: start from `0.0` for the
identifier of every metric, then for each identifier with rows sum the non-null `change`
values and store the sum when at least one non-null change was seen. -/
def _calculate_totals (metrics : List MetricDefinition)
    (stats : List (String × List StatisticsRow)) : List (String × ℚ) :=
  let totals := metrics.foldl (fun t m => dictSet t m.statistic_id 0) []
  stats.foldl totalsStep totals

/-- The six slots of the fixed balance vocabulary. -/
inductive BalanceSlot where
  | production | imported | exported | consumption | charge | discharge
deriving DecidableEq, Repr

/-- Lookup table `_CONCLUSION_CATEGORY_MAP`: category label → balance slot. -/
def _CONCLUSION_CATEGORY_MAP (category : String) : Option BalanceSlot :=
  if category = "Production solaire" then some .production
  else if category = "Import réseau" then some .imported
  else if category = "Export réseau" then some .exported
  else if category = "Consommation appareils" then some .consumption
  else if category = "Charge batterie" then some .charge
  else if category = "Décharge batterie" then some .discharge
  else none

/-- The `category_totals` accumulator of `_prepare_conclusion_summary`. -/
structure CategoryTotals where
  production : ℚ
  imported : ℚ
  exported : ℚ
  consumption : ℚ
  charge : ℚ
  discharge : ℚ
deriving DecidableEq, Repr

/-- Read one slot of the accumulator. -/
def CategoryTotals.get (t : CategoryTotals) : BalanceSlot → ℚ
  | .production => t.production
  | .imported => t.imported
  | .exported => t.exported
  | .consumption => t.consumption
  | .charge => t.charge
  | .discharge => t.discharge

/-- Slot update `category_totals[key] += total`. -/
def CategoryTotals.add (t : CategoryTotals) (s : BalanceSlot) (v : ℚ) :
    CategoryTotals :=
  match s with
  | .production => { t with production := t.production + v }
  | .imported => { t with imported := t.imported + v }
  | .exported => { t with exported := t.exported + v }
  | .consumption => { t with consumption := t.consumption + v }
  | .charge => { t with charge := t.charge + v }
  | .discharge => { t with discharge := t.discharge + v }

/-- Model of `_extract_unit(metadata_entry)`: the stored `unit_of_measurement` when
present and non-empty (Python truthiness), else `""`.  A metadata entry is
modelled by its optional `unit_of_measurement` field. -/
def _extract_unit (metadata : Option (Option String)) : String :=
  match metadata with
  | some (some u) => if u = "" then "" else u
  | _ => ""

/-- Python `str.strip()` (leading and trailing whitespace removed), modelled
on the character list. -/
def pyStrip (s : String) : String :=
  ⟨((s.data.dropWhile Char.isWhitespace).reverse.dropWhile
      Char.isWhitespace).reverse⟩

/-- Python `str.lower()`, modelled on the character list. -/
def pyLower (s : String) : String :=
  ⟨s.data.map Char.toLower⟩

/-- Python string truthiness of an optional string (`None` and `""` falsy). -/
def pyTruthy (s : Option String) : Bool :=
  match s with
  | none => false
  | some v => v ≠ ""

/-- Loop state of `_prepare_conclusion_summary`: slot totals, the first
non-empty unit seen, and whether any vocabulary total was found. -/
structure ConclusionFoldState where
  totals : CategoryTotals
  energy_unit : Option String
  has_values : Bool
deriving DecidableEq, Repr

/-- One iteration of the metric loop of `_prepare_conclusion_summary`: skip metrics
whose category is outside the vocabulary and metrics whose identifier is
absent from `totals`; otherwise accumulate into the slot, and backfill the
energy unit from metadata when not yet set. -/
def conclusionStep (totals : List (String × ℚ))
    (metadata : List (String × Option String))
    (st : ConclusionFoldState) (metric : MetricDefinition) :
    ConclusionFoldState :=
  match _CONCLUSION_CATEGORY_MAP metric.category with
  | none => st
  | some slot =>
    match dictGet totals metric.statistic_id with
    | none => st
    | some total =>
      let st' : ConclusionFoldState :=
        { st with has_values := true, totals := st.totals.add slot total }
      if pyTruthy st'.energy_unit then st'
      else
        let unit_candidate :=
          pyStrip (_extract_unit (dictGet metadata metric.statistic_id))
        if unit_candidate = "" then st'
        else { st' with energy_unit := some unit_candidate }

/-- The initial fold state of `_prepare_conclusion_summary`. -/
def initConclusionState : ConclusionFoldState :=
  ⟨⟨0, 0, 0, 0, 0, 0⟩, none, false⟩

/-- Dataclass `ConclusionSummary` (the `formatted` display strings are not
modelled; every other field is). -/
structure ConclusionSummary where
  production : ℚ
  imported : ℚ
  exported : ℚ
  consumption : ℚ
  charge : ℚ
  discharge : ℚ
  direct : ℚ
  indirect : Option ℚ
  total_estimated_consumption : ℚ
  untracked_consumption : ℚ
  has_battery : Bool
  energy_unit : Option String
deriving DecidableEq, Repr

/-- Read the summary field recording one vocabulary slot. -/
def ConclusionSummary.slotVal (s : ConclusionSummary) : BalanceSlot → ℚ
  | .production => s.production
  | .imported => s.imported
  | .exported => s.exported
  | .consumption => s.consumption
  | .charge => s.charge
  | .discharge => s.discharge

/-- Model of `_prepare_conclusion_summary(metrics, totals, metadata)`: fold the metric
list into slot totals, return `None` when no vocabulary total was found, else
derive the balance (direct / indirect self-consumption, estimated total and
untracked consumption, battery detection). -/
def _prepare_conclusion_summary (metrics : List MetricDefinition)
    (totals : List (String × ℚ)) (metadata : List (String × Option String)) :
    Option ConclusionSummary :=
  let st := metrics.foldl (conclusionStep totals metadata) initConclusionState
  if st.has_values = false then none
  else
    let production := st.totals.production
    let imported := st.totals.imported
    let exported := st.totals.exported
    let consumption := st.totals.consumption
    let charge := st.totals.charge
    let discharge := st.totals.discharge
    let direct_self_consumption :=
      max (production - max exported 0 - max charge 0) 0
    let battery_detected := metrics.any fun m =>
      m.category = "Charge batterie" ∨ m.category = "Décharge batterie"
    let indirect_self_consumption : Option ℚ :=
      if battery_detected then some (max (min discharge charge) 0) else none
    let total_estimated_consumption :=
      production + imported + discharge - exported - charge
    let untracked_consumption :=
      max (total_estimated_consumption - consumption) 0
    some
      { production := production
        imported := imported
        exported := exported
        consumption := consumption
        charge := charge
        discharge := discharge
        direct := direct_self_consumption
        indirect := indirect_self_consumption
        total_estimated_consumption := total_estimated_consumption
        untracked_consumption := untracked_consumption
        has_battery := battery_detected
        energy_unit := st.energy_unit }

/-! ## Source Configuration Walker (`_build_metrics`) -/

/-- One grid flow record (a `flow_from` / `flow_to` entry); the Python dict is
modelled by its optional statistic fields. -/
structure GridFlow where
  stat_energy_from : Option String := none
  stat_energy_to : Option String := none
  stat_cost : Option String := none
  stat_compensation : Option String := none
  stat_co2 : Option String := none
deriving DecidableEq, Repr

/-- One `energy_sources` entry with its `type` discriminator and the
statistic fields consulted by the walker. -/
structure EnergySource where
  source_type : Option String := none
  flow_from : List GridFlow := []
  flow_to : List GridFlow := []
  stat_energy_from : Option String := none
  stat_energy_to : Option String := none
  stat_cost : Option String := none
  stat_co2 : Option String := none
deriving DecidableEq, Repr

/-- One `device_consumption` entry. -/
structure DeviceConsumption where
  stat_consumption : Option String := none
  stat_co2 : Option String := none
deriving DecidableEq, Repr

/-- The energy-preferences blob consumed by the walker. -/
structure EnergyPreferences where
  energy_sources : List EnergySource := []
  device_consumption : List DeviceConsumption := []
deriving DecidableEq, Repr

/-- Walker state: the metric list under construction and the set of
identifiers already seen (Python `seen: set[str]`, modelled as a list). -/
abbrev WalkerState := List MetricDefinition × List String

/-- The nested `_add` helper of `_build_metrics`: skip falsy (`None`/empty)
identifiers and identifiers already seen, otherwise append the metric and
record the identifier. -/
def addMetric (st : WalkerState) (statistic_id : Option String)
    (category : String) : WalkerState :=
  match statistic_id with
  | none => st
  | some sid =>
      if sid = "" ∨ sid ∈ st.2 then st
      else (st.1 ++ [⟨category, sid⟩], sid :: st.2)

/-- The nested `_add_co2_stat` helper: only acts when `co2_enabled`. -/
def addCo2Stat (co2_enabled : Bool) (st : WalkerState)
    (stat_co2 : Option String) : WalkerState :=
  if co2_enabled then addMetric st stat_co2 "Émissions CO₂" else st

/-- Walker step for one `energy_sources` entry, dispatching on `type`. -/
def buildMetricsSourceStep (co2_enabled : Bool) (st : WalkerState)
    (source : EnergySource) : WalkerState :=
  let st :=
    if source.source_type = some "grid" then
      let st := source.flow_from.foldl
        (fun st flow =>
          addCo2Stat co2_enabled
            (addMetric (addMetric st flow.stat_energy_from "Import réseau")
              flow.stat_cost "Coût réseau")
            flow.stat_co2)
        st
      source.flow_to.foldl
        (fun st flow =>
          addCo2Stat co2_enabled
            (addMetric (addMetric st flow.stat_energy_to "Export réseau")
              flow.stat_compensation "Compensation réseau")
            flow.stat_co2)
        st
    else if source.source_type = some "solar" then
      addMetric st source.stat_energy_from "Production solaire"
    else if source.source_type = some "battery" then
      addMetric (addMetric st source.stat_energy_from "Décharge batterie")
        source.stat_energy_to "Charge batterie"
    else if source.source_type = some "gas" then
      addMetric (addMetric st source.stat_energy_from "Consommation gaz")
        source.stat_cost "Coût gaz"
    else if source.source_type = some "water" then
      addMetric (addMetric st source.stat_energy_from "Consommation eau")
        source.stat_cost "Coût eau"
    else st
  addCo2Stat co2_enabled st source.stat_co2

/-- Model of `_build_metrics(preferences, co2_enabled, price_enabled)`: walk the energy
sources and device-consumption entries, deduplicating identifiers.  The
`price_enabled` flag is accepted (as in the source signature) but never
consulted by the body. -/
def _build_metrics (preferences : EnergyPreferences)
    (co2_enabled : Bool) (price_enabled : Bool) : List MetricDefinition :=
  let st : WalkerState := ([], [])
  let st := preferences.energy_sources.foldl
    (buildMetricsSourceStep co2_enabled) st
  let st := preferences.device_consumption.foldl
    (fun st device =>
      addCo2Stat co2_enabled
        (addMetric st device.stat_consumption "Consommation appareils")
        device.stat_co2)
    st
  st.1

/-! ## Period Resolver (`_resolve_period`, `_select_bucket`) -/

/-- Python `datetime.date`: a proleptic-Gregorian calendar date. -/
structure PyDate where
  year : ℤ
  month : ℤ
  day : ℤ
deriving DecidableEq, Repr

/-- Gregorian leap year (`calendar.isleap`). -/
def isLeap (y : ℤ) : Bool :=
  decide ((y % 4 = 0 ∧ y % 100 ≠ 0) ∨ y % 400 = 0)

/-- Number of days in a month (`calendar.monthrange(y, m)[1]`). -/
def daysInMonth (y m : ℤ) : ℤ :=
  if m = 1 then 31
  else if m = 2 then (if isLeap y then 29 else 28)
  else if m = 3 then 31
  else if m = 4 then 30
  else if m = 5 then 31
  else if m = 6 then 30
  else if m = 7 then 31
  else if m = 8 then 31
  else if m = 9 then 30
  else if m = 10 then 31
  else if m = 11 then 30
  else if m = 12 then 31
  else 0

/-- A `PyDate` is valid when its month and day are in calendar range
(Python `date` objects satisfy this by construction). -/
def PyDate.valid (d : PyDate) : Prop :=
  1 ≤ d.month ∧ d.month ≤ 12 ∧ 1 ≤ d.day ∧ d.day ≤ daysInMonth d.year d.month

instance (d : PyDate) : Decidable d.valid := by
  unfold PyDate.valid; infer_instance

/-- Days before the start of month `m` in year `y`. -/
def daysBeforeMonth (y m : ℤ) : ℤ :=
  (if m = 1 then 0
   else if m = 2 then 31
   else if m = 3 then 59
   else if m = 4 then 90
   else if m = 5 then 120
   else if m = 6 then 151
   else if m = 7 then 181
   else if m = 8 then 212
   else if m = 9 then 243
   else if m = 10 then 273
   else if m = 11 then 304
   else 334)
  + (if 3 ≤ m ∧ isLeap y then 1 else 0)

/-- Model of `date.toordinal`: day count in the proleptic Gregorian calendar
with 0001-01-01 ↦ 1.  Python date comparison coincides with ordinal
comparison, and `date ± timedelta(days=n)` shifts the ordinal by `n`. -/
def PyDate.toOrdinal (d : PyDate) : ℤ :=
  365 * (d.year - 1) + (d.year - 1) / 4 - (d.year - 1) / 100
    + (d.year - 1) / 400 + daysBeforeMonth d.year d.month + d.day

/-- Calendar successor of a date. -/
def PyDate.nextDay (d : PyDate) : PyDate :=
  if d.day < daysInMonth d.year d.month then ⟨d.year, d.month, d.day + 1⟩
  else if d.month < 12 then ⟨d.year, d.month + 1, 1⟩
  else ⟨d.year + 1, 1, 1⟩

/-- Calendar predecessor of a date. -/
def PyDate.prevDay (d : PyDate) : PyDate :=
  if 1 < d.day then ⟨d.year, d.month, d.day - 1⟩
  else if 1 < d.month then
    ⟨d.year, d.month - 1, daysInMonth d.year (d.month - 1)⟩
  else ⟨d.year - 1, 12, 31⟩

/-- Addition `date + timedelta(days=n)` for `n ≥ 0`. -/
def PyDate.addDays (d : PyDate) (n : ℕ) : PyDate :=
  PyDate.nextDay^[n] d

/-- Subtraction `date - timedelta(days=n)` for `n ≥ 0`. -/
def PyDate.subDays (d : PyDate) (n : ℕ) : PyDate :=
  PyDate.prevDay^[n] d

/-- Python `date.weekday()` (Monday = 0). -/
def PyDate.weekday (d : PyDate) : ℤ :=
  (d.toOrdinal + 6) % 7

/-- Start-date defaulting of `_resolve_period` when no explicit start is
given: today / Monday of the current week / first of the current month, and
the unsupported-period error otherwise. -/
def _default_start (period : String) (now_local : PyDate) :
    Except String PyDate :=
  if period = "day" then .ok now_local
  else if period = "week" then
    .ok (now_local.subDays now_local.weekday.toNat)
  else if period = "month" then .ok ⟨now_local.year, now_local.month, 1⟩
  else .error "Période non supportée"

/-- End-date defaulting of `_resolve_period` when no explicit end is given:
same day / start+6 days / last calendar day of the month of the start; for any
other period kind the end date stays unset and the trailing
`if end_date is None` fallback makes it the start date. -/
def _default_end (period : String) (s : PyDate) : PyDate :=
  if period = "day" then s
  else if period = "week" then s.addDays 6
  else if period = "month" then ⟨s.year, s.month, daysInMonth s.year s.month⟩
  else s

/-- The `end_date < start_date` validation of `_resolve_period` (Python date
comparison, i.e. ordinal comparison), with the user-facing source error. -/
def _check_order (s e : PyDate) : Except String (PyDate × PyDate) :=
  if e.toOrdinal < s.toOrdinal then
    .error "La date de fin doit être postérieure à la date de début."
  else .ok (s, e)

/-- Date-resolution phase of `_resolve_period` (source lines 958–986): default
the start date from `now` by period kind (raising for an unsupported kind),
default the end date by period kind, and reject an end date before the start
date. -/
def _resolve_dates (period : String) (start_date end_date : Option PyDate)
    (now_local : PyDate) : Except String (PyDate × PyDate) :=
  match
    (match start_date with
      | some s => Except.ok s
      | none => _default_start period now_local) with
  | .error msg => .error msg
  | .ok s =>
      _check_order s
        (match end_date with
          | some e => e
          | none => _default_end period s)

/-- Model of `_localize_date(day, tz)` under a fixed UTC offset `off` (seconds): the
absolute instant of local midnight of `day`. -/
def _localize_date (d : PyDate) (off : ℤ) : ℤ :=
  d.toOrdinal * 86400 - off

/-- Normalization `period.lower() if isinstance(period, str) else ""`: a non-string period
is modelled by `none`. -/
def normalizePeriod (period : Option String) : String :=
  match period with
  | some p => pyLower p
  | none => ""

/-- Model of `_select_bucket(period, start_local, end_local_exclusive)`: explicit rule
by lowered period type, otherwise span-based fallback; instants are in
seconds. -/
def _select_bucket (period : Option String)
    (start_local end_local_exclusive : ℤ) : String :=
  let normalized := normalizePeriod period
  if normalized = "day" then "hour"
  else if normalized = "week" then "day"
  else if normalized = "month" then "day"
  else
    let span := end_local_exclusive - start_local
    if span ≤ 2 * 86400 then "hour"
    else if span ≤ 35 * 86400 then "day"
    else "month"

/-- The tuple returned by `_resolve_period`: UTC query bounds (exclusive end),
the local display bounds (inclusive end) and the bucket.  `display_start` is
the returned `start_local`; as instants `start_utc` and `display_start`
coincide (`as_utc` changes representation, not the instant). -/
structure ResolvedPeriod where
  start_utc : ℤ
  end_utc : ℤ
  display_start : ℤ
  display_end : ℤ
  bucket : String
deriving DecidableEq, Repr

/-- Model of `_resolve_period`: resolve the dates, localize them at offset `off`, form
the exclusive end (local midnight of the day after the end date), the display
end (one second earlier) and the bucket. -/
def _resolve_period (period : String) (start_date end_date : Option PyDate)
    (now_local : PyDate) (off : ℤ) : Except String ResolvedPeriod :=
  match _resolve_dates period start_date end_date now_local with
  | .error e => .error e
  | .ok (s, e) =>
      let start_local := _localize_date s off
      let end_local := _localize_date e off
      let end_local_exclusive := end_local + 86400
      .ok
        { start_utc := start_local
          end_utc := end_local_exclusive
          display_start := start_local
          display_end := end_local_exclusive - 1
          bucket := _select_bucket (some period) start_local
            end_local_exclusive }

/-! ## Concrete inputs used to exercise the theorems -/

/-- One metric per vocabulary category. -/
def metrics0 : List MetricDefinition :=
  [⟨"Production solaire", "stat_prod"⟩, ⟨"Import réseau", "stat_imp"⟩,
   ⟨"Export réseau", "stat_exp"⟩, ⟨"Consommation appareils", "stat_cons"⟩,
   ⟨"Charge batterie", "stat_cha"⟩, ⟨"Décharge batterie", "stat_dis"⟩]

/-- The worked example of the spec: production 10, imported 5, exported 2,
consumption 9, charge 3, discharge 1. -/
def totals0 : List (String × ℚ) :=
  [("stat_prod", 10), ("stat_imp", 5), ("stat_exp", 2), ("stat_cons", 9),
   ("stat_cha", 3), ("stat_dis", 1)]

/-- The reconciled summary of the worked example. -/
def summary0 : ConclusionSummary :=
  ⟨10, 5, 2, 9, 3, 1, 5, some 1, 11, 2, true, none⟩

/-- An adversarial all-negative totals assignment. -/
def totalsNeg : List (String × ℚ) :=
  [("stat_prod", -10), ("stat_imp", -5), ("stat_exp", -2), ("stat_cons", -9),
   ("stat_cha", -3), ("stat_dis", -1)]

/-- The reconciled summary of the all-negative assignment. -/
def summaryNeg : ConclusionSummary :=
  ⟨-10, -5, -2, -9, -3, -1, 0, some 0, -11, 0, true, none⟩

/-- A configuration whose battery reuses the identifier of the solar source. -/
def prefs0 : EnergyPreferences :=
  { energy_sources :=
      [{ source_type := some "solar", stat_energy_from := some "s" },
       { source_type := some "battery", stat_energy_from := some "s",
         stat_energy_to := some "b" }] }

/-- Rows for one identifier mixing null and non-null changes. -/
def stats0 : List (String × List StatisticsRow) :=
  [("a", [⟨none, none⟩, ⟨some 3, none⟩, ⟨some 4, none⟩]), ("b", [])]

end EnergyPdfReport

deriving instance DecidableEq for Except

namespace EnergyPdfReport

/-! ## Reconciler lemmas -/

lemma prepare_some_fields (metrics : List MetricDefinition)
    (totals : List (String × ℚ)) (metadata : List (String × Option String))
    (s : ConclusionSummary)
    (h : _prepare_conclusion_summary metrics totals metadata = some s) :
    s.direct = max (s.production - max s.exported 0 - max s.charge 0) 0 ∧
    s.total_estimated_consumption =
      s.production + s.imported + s.discharge - s.exported - s.charge ∧
    s.untracked_consumption =
      max (s.total_estimated_consumption - s.consumption) 0 ∧
    ∀ slot : BalanceSlot,
      s.slotVal slot =
        (metrics.foldl (conclusionStep totals metadata)
          initConclusionState).totals.get slot := by
  cases hv : (metrics.foldl (conclusionStep totals metadata)
      initConclusionState).has_values with
  | false =>
      simp only [_prepare_conclusion_summary] at h
      rw [hv] at h
      simp at h
  | true =>
      simp only [_prepare_conclusion_summary] at h
      rw [hv] at h
      simp only [Bool.true_eq_false, if_false, Option.some.injEq] at h
      subst h
      refine ⟨rfl, rfl, rfl, ?_⟩
      intro slot
      cases slot <;> rfl

lemma prepare_summary0 :
    _prepare_conclusion_summary metrics0 totals0 [] = some summary0 := by
  simp [_prepare_conclusion_summary, conclusionStep, _CONCLUSION_CATEGORY_MAP,
    dictGet, CategoryTotals.add, pyTruthy, _extract_unit, pyStrip,
    initConclusionState, metrics0, totals0, summary0]
  norm_num

lemma prepare_summaryNeg :
    _prepare_conclusion_summary metrics0 totalsNeg [] = some summaryNeg := by
  simp [_prepare_conclusion_summary, conclusionStep, _CONCLUSION_CATEGORY_MAP,
    dictGet, CategoryTotals.add, pyTruthy, _extract_unit, pyStrip,
    initConclusionState, metrics0, totalsNeg, summaryNeg]
  norm_num

/-- Claim C1: every summary the reconciler produces satisfies the three
derivation formulas `direct = max(production - max(exported,0) -
max(charge,0), 0)`, `total_estimated_consumption = production + imported +
discharge - exported - charge` and `untracked_consumption =
max(total_estimated_consumption - consumption, 0)`; on the worked
example (production 10, exported 2, charge 3, discharge 1, imported 5,
consumption 9) the reconciler yields direct 5, total estimated 11 and
untracked 2. -/
theorem reconciler_formulas :
    (∀ (metrics : List MetricDefinition) (totals : List (String × ℚ))
        (metadata : List (String × Option String)) (s : ConclusionSummary),
      _prepare_conclusion_summary metrics totals metadata = some s →
        s.direct = max (s.production - max s.exported 0 - max s.charge 0) 0 ∧
        s.total_estimated_consumption =
          s.production + s.imported + s.discharge - s.exported - s.charge ∧
        s.untracked_consumption =
          max (s.total_estimated_consumption - s.consumption) 0) ∧
    _prepare_conclusion_summary metrics0 totals0 [] = some summary0 ∧
    summary0.direct = 5 ∧ summary0.total_estimated_consumption = 11 ∧
    summary0.untracked_consumption = 2 := by
  refine ⟨?_, prepare_summary0, rfl, rfl, rfl⟩
  intro metrics totals metadata s h
  obtain ⟨h1, h2, h3, _⟩ := prepare_some_fields metrics totals metadata s h
  exact ⟨h1, h2, h3⟩

/-- Witness for C1: the formulas instantiated on the worked example. -/
theorem reconciler_formulas_witness :
    summary0.direct =
      max (summary0.production - max summary0.exported 0 -
        max summary0.charge 0) 0 ∧
    summary0.total_estimated_consumption =
      summary0.production + summary0.imported + summary0.discharge -
        summary0.exported - summary0.charge ∧
    summary0.untracked_consumption =
      max (summary0.total_estimated_consumption - summary0.consumption) 0 :=
  reconciler_formulas.1 metrics0 totals0 [] summary0 prepare_summary0

/-- Claim C2: for every input totals map — negative slot values included — a
summary produced by the reconciler has `untracked_consumption ≥ 0` and
`direct ≥ 0`. -/
theorem reconciler_clamps_nonneg (metrics : List MetricDefinition)
    (totals : List (String × ℚ)) (metadata : List (String × Option String))
    (s : ConclusionSummary)
    (h : _prepare_conclusion_summary metrics totals metadata = some s) :
    0 ≤ s.untracked_consumption ∧ 0 ≤ s.direct := by
  obtain ⟨h1, _, h3, _⟩ := prepare_some_fields metrics totals metadata s h
  exact ⟨h3 ▸ le_max_right _ _, h1 ▸ le_max_right _ _⟩

/-- Witness for C2: the clamps on an all-negative totals assignment. -/
theorem reconciler_clamps_nonneg_witness :
    0 ≤ summaryNeg.untracked_consumption ∧ 0 ≤ summaryNeg.direct :=
  reconciler_clamps_nonneg metrics0 totalsNeg [] summaryNeg prepare_summaryNeg

lemma conclusionStep_has_values (totals : List (String × ℚ))
    (metadata : List (String × Option String)) (st : ConclusionFoldState)
    (m : MetricDefinition) :
    (conclusionStep totals metadata st m).has_values =
      (st.has_values ||
        ((_CONCLUSION_CATEGORY_MAP m.category).isSome &&
          (dictGet totals m.statistic_id).isSome)) := by
  unfold conclusionStep
  cases hc : _CONCLUSION_CATEGORY_MAP m.category with
  | none => simp
  | some slot =>
      cases ht : dictGet totals m.statistic_id with
      | none => simp
      | some v =>
          simp only [Option.isSome_some, Bool.and_true, Bool.or_true]
          split
          · rfl
          · split <;> rfl

lemma foldl_conclusionStep_has_values (totals : List (String × ℚ))
    (metadata : List (String × Option String))
    (l : List MetricDefinition) :
    ∀ st : ConclusionFoldState,
      (l.foldl (conclusionStep totals metadata) st).has_values =
        (st.has_values ||
          l.any fun m =>
            (_CONCLUSION_CATEGORY_MAP m.category).isSome &&
              (dictGet totals m.statistic_id).isSome) := by
  induction l with
  | nil => intro st; simp
  | cons m l ih =>
      intro st
      simp only [List.foldl_cons, List.any_cons, ih,
        conclusionStep_has_values, Bool.or_assoc]

lemma conclusionStep_get_of_ne (totals : List (String × ℚ))
    (metadata : List (String × Option String)) (st : ConclusionFoldState)
    (m : MetricDefinition) (slot : BalanceSlot)
    (hm : _CONCLUSION_CATEGORY_MAP m.category ≠ some slot) :
    (conclusionStep totals metadata st m).totals.get slot =
      st.totals.get slot := by
  unfold conclusionStep
  cases hc : _CONCLUSION_CATEGORY_MAP m.category with
  | none => rfl
  | some slot' =>
      cases ht : dictGet totals m.statistic_id with
      | none => simp [ht]
      | some v =>
          have hne : slot' ≠ slot := by
            intro hEq; exact hm (by rw [hc, hEq])
          have hadd : ∀ t : CategoryTotals, (t.add slot' v).get slot
              = t.get slot := by
            intro t
            cases slot' <;> cases slot <;>
              simp_all [CategoryTotals.add, CategoryTotals.get]
          simp only [ht]
          split
          · exact hadd _
          · split
            · exact hadd _
            · exact hadd _

lemma foldl_conclusionStep_get_of_ne (totals : List (String × ℚ))
    (metadata : List (String × Option String))
    (l : List MetricDefinition) (slot : BalanceSlot) :
    ∀ st : ConclusionFoldState,
      (∀ m ∈ l, _CONCLUSION_CATEGORY_MAP m.category ≠ some slot) →
      (l.foldl (conclusionStep totals metadata) st).totals.get slot =
        st.totals.get slot := by
  induction l with
  | nil => intro st _; rfl
  | cons m l ih =>
      intro st hl
      simp only [List.foldl_cons]
      rw [ih _ fun x hx => hl x (List.mem_cons_of_mem _ hx),
        conclusionStep_get_of_ne _ _ _ _ _ (hl m (List.mem_cons_self m l))]

lemma prepare_none_iff (metrics : List MetricDefinition)
    (totals : List (String × ℚ))
    (metadata : List (String × Option String)) :
    _prepare_conclusion_summary metrics totals metadata = none ↔
      (metrics.foldl (conclusionStep totals metadata)
        initConclusionState).has_values = false := by
  cases hv : (metrics.foldl (conclusionStep totals metadata)
      initConclusionState).has_values with
  | false => simp [_prepare_conclusion_summary, hv]
  | true => simp [_prepare_conclusion_summary, hv]

/-- Claim C4: provided every metric identifier has an entry in the totals map
(which the aggregator guarantees), the reconciler returns `None` exactly when
no metric maps onto the fixed balance vocabulary; and in a produced summary,
any vocabulary slot no metric maps to holds `0.0`. -/
theorem reconciler_none_iff_no_vocab (metrics : List MetricDefinition)
    (totals : List (String × ℚ)) (metadata : List (String × Option String))
    (hcov : ∀ m ∈ metrics, (dictGet totals m.statistic_id).isSome = true) :
    (_prepare_conclusion_summary metrics totals metadata = none ↔
      ∀ m ∈ metrics, _CONCLUSION_CATEGORY_MAP m.category = none) ∧
    (∀ s : ConclusionSummary,
      _prepare_conclusion_summary metrics totals metadata = some s →
      ∀ slot : BalanceSlot,
        (∀ m ∈ metrics, _CONCLUSION_CATEGORY_MAP m.category ≠ some slot) →
        s.slotVal slot = 0) := by
  constructor
  · rw [prepare_none_iff, foldl_conclusionStep_has_values]
    simp only [initConclusionState, Bool.false_or, List.any_eq_false]
    constructor
    · intro hall m hm
      have := hall m hm
      rw [hcov m hm, Bool.and_true] at this
      simpa using this
    · intro hall m hm
      rw [hall m hm]
      simp
  · intro s hs slot hslot
    obtain ⟨_, _, _, h4⟩ := prepare_some_fields metrics totals metadata s hs
    rw [h4 slot, foldl_conclusionStep_get_of_ne _ _ _ _ _ hslot]
    cases slot <;> rfl

/-- Witness for C4: on the worked example every identifier is covered, the
result is not `None`, and no slot hypothesis is vacuous. -/
theorem reconciler_none_iff_no_vocab_witness :
    ¬ _prepare_conclusion_summary metrics0 totals0 [] = none := by
  have h := (reconciler_none_iff_no_vocab metrics0 totals0 []
    (by decide)).1
  intro hn
  have := (h.mp hn) ⟨"Production solaire", "stat_prod"⟩ (by decide)
  simp [_CONCLUSION_CATEGORY_MAP] at this

/-! ## Totals-aggregator lemmas -/

lemma dictGet_dictSet_self {α : Type} (m : List (String × α)) (k : String)
    (v : α) : dictGet (dictSet m k v) k = some v := by
  induction m with
  | nil => simp [dictSet, dictGet]
  | cons p rest ih =>
      obtain ⟨k', v'⟩ := p
      by_cases hk : k' = k <;> simp [dictSet, dictGet, hk, ih]

lemma dictGet_dictSet_ne {α : Type} (m : List (String × α)) (k' k : String)
    (v : α) (h : k' ≠ k) : dictGet (dictSet m k' v) k = dictGet m k := by
  induction m with
  | nil => simp [dictSet, dictGet, h]
  | cons p rest ih =>
      obtain ⟨k₀, v₀⟩ := p
      by_cases hk : k₀ = k'
      · subst hk; simp [dictSet, dictGet, h]
      · simp [dictSet, dictGet, hk, ih]

lemma dictGet_init_totals (metrics : List MetricDefinition) (k : String) :
    ∀ t : List (String × ℚ),
      dictGet (metrics.foldl (fun t m => dictSet t m.statistic_id 0) t) k =
        if k ∈ metrics.map (·.statistic_id) then some 0 else dictGet t k := by
  induction metrics with
  | nil => intro t; simp
  | cons m l ih =>
      intro t
      simp only [List.foldl_cons, List.map_cons, List.mem_cons, ih]
      by_cases hk : m.statistic_id = k
      · subst hk
        by_cases hmem : m.statistic_id ∈ l.map (·.statistic_id) <;>
          simp [hmem, dictGet_dictSet_self]
      · have hk' : ¬(k = m.statistic_id) := fun h => hk h.symm
        rw [dictGet_dictSet_ne _ _ _ _ hk]
        by_cases hmem : k ∈ l.map (·.statistic_id) <;> simp [hmem, hk']

lemma changeStep_foldl (rows : List StatisticsRow) :
    ∀ (b : Bool) (q : ℚ),
      rows.foldl changeStep (b, q) =
        (b || rows.any fun r => r.change.isSome,
          q + (rows.filterMap StatisticsRow.change).sum) := by
  induction rows with
  | nil => intro b q; simp
  | cons r rest ih =>
      intro b q
      cases hr : r.change with
      | none => simp [changeStep, hr, ih]
      | some c => simp [changeStep, hr, ih, add_assoc]

lemma totalsStep_get_ne (t : List (String × ℚ))
    (p : String × List StatisticsRow) (k : String) (h : p.1 ≠ k) :
    dictGet (totalsStep t p) k = dictGet t k := by
  unfold totalsStep
  split
  · rfl
  · dsimp only
    split
    · exact dictGet_dictSet_ne _ _ _ _ h
    · rfl

lemma foldl_totalsStep_not_mem (stats : List (String × List StatisticsRow))
    (k : String) :
    ∀ t : List (String × ℚ), k ∉ stats.map Prod.fst →
      dictGet (stats.foldl totalsStep t) k = dictGet t k := by
  induction stats with
  | nil => intro t _; rfl
  | cons p rest ih =>
      intro t hk
      simp only [List.map_cons, List.mem_cons] at hk
      push_neg at hk
      simp only [List.foldl_cons]
      rw [ih _ hk.2, totalsStep_get_ne _ _ _ fun h => hk.1 h.symm]

lemma foldl_totalsStep_get (stats : List (String × List StatisticsRow))
    (k : String) :
    ∀ t : List (String × ℚ), (stats.map Prod.fst).Nodup →
      dictGet (stats.foldl totalsStep t) k =
        match dictGet stats k with
        | none => dictGet t k
        | some rows =>
            if rows ≠ [] ∧ (rows.any fun r => r.change.isSome) then
              some (rows.filterMap StatisticsRow.change).sum
            else dictGet t k := by
  induction stats with
  | nil => intro t _; rfl
  | cons p rest ih =>
      intro t hnd
      obtain ⟨k₀, rows₀⟩ := p
      simp only [List.map_cons, List.nodup_cons] at hnd
      simp only [List.foldl_cons]
      by_cases hk : k₀ = k
      · subst hk
        rw [foldl_totalsStep_not_mem rest _ _ hnd.1]
        have hdg : dictGet ((k₀, rows₀) :: rest) k₀ = some rows₀ := by
          simp [dictGet]
        rw [hdg]
        unfold totalsStep
        by_cases hrows : rows₀ = []
        · simp [hrows]
        · dsimp only
          rw [changeStep_foldl]
          by_cases hany : (rows₀.any fun r => r.change.isSome) = true
          · simp [hrows, hany, dictGet_dictSet_self]
          · simp [hrows, hany]
      · have hdg : dictGet ((k₀, rows₀) :: rest) k = dictGet rest k := by
          simp [dictGet, hk]
        rw [ih _ hnd.2, hdg]
        have hstep := totalsStep_get_ne t (k₀, rows₀) k hk
        cases hr : dictGet rest k with
        | none => simpa using hstep
        | some rows =>
            dsimp only
            split
            · rfl
            · exact hstep

/-- Claim C7: for every metrics list and rows map with distinct identifiers
(keys of a Python dict), the identifier of every metric is a key of the
aggregated totals, mapping to the sum of the non-null `change` values of its
rows — hence
exactly `0.0` when its rows are absent, empty, or all-null. -/
theorem totals_cover_metrics_and_sum (metrics : List MetricDefinition)
    (stats : List (String × List StatisticsRow))
    (hnd : (stats.map Prod.fst).Nodup) (m : MetricDefinition)
    (hm : m ∈ metrics) :
    dictGet (_calculate_totals metrics stats) m.statistic_id =
      some (((dictGet stats m.statistic_id).getD []).filterMap
        StatisticsRow.change).sum ∧
    (((dictGet stats m.statistic_id).getD []).filterMap StatisticsRow.change
        = [] →
      dictGet (_calculate_totals metrics stats) m.statistic_id = some 0) := by
  have hmem : m.statistic_id ∈ metrics.map (·.statistic_id) :=
    List.mem_map_of_mem _ hm
  have hbase :
      dictGet (_calculate_totals metrics stats) m.statistic_id =
        some (((dictGet stats m.statistic_id).getD []).filterMap
          StatisticsRow.change).sum := by
    unfold _calculate_totals
    rw [foldl_totalsStep_get stats _ _ hnd]
    cases hs : dictGet stats m.statistic_id with
    | none => simp [dictGet_init_totals, hmem]
    | some rows =>
        by_cases hrows : rows = []
        · simp [hrows, dictGet_init_totals, hmem]
        · by_cases hany : (rows.any fun r => r.change.isSome) = true
          · simp [hrows, hany]
          · have hnil : rows.filterMap StatisticsRow.change = [] := by
              rw [List.filterMap_eq_nil_iff]
              intro r hr
              cases hc : r.change with
              | none => rfl
              | some c =>
                  exfalso
                  exact hany (List.any_eq_true.mpr ⟨r, hr, by simp [hc]⟩)
            simp [hrows, hany, hnil, dictGet_init_totals, hmem]
  refine ⟨hbase, fun hnil => ?_⟩
  rw [hbase, hnil]
  rfl

/-- Witness for C7: identifier `"a"` has rows `[None, 3, 4]` (total `7`),
identifier `"b"` has an empty row list (total stays `0.0`). -/
theorem totals_cover_metrics_and_sum_witness :
    dictGet (_calculate_totals [⟨"c", "a"⟩, ⟨"d", "b"⟩] stats0) "a"
        = some 7 ∧
    dictGet (_calculate_totals [⟨"c", "a"⟩, ⟨"d", "b"⟩] stats0) "b"
        = some 0 := by
  constructor
  · have h := (totals_cover_metrics_and_sum [⟨"c", "a"⟩, ⟨"d", "b"⟩] stats0
      (by decide) ⟨"c", "a"⟩ (by decide)).1
    rw [h]
    simp [stats0, dictGet, List.filterMap_cons]
    norm_num
  · have h := (totals_cover_metrics_and_sum [⟨"c", "a"⟩, ⟨"d", "b"⟩] stats0
      (by decide) ⟨"d", "b"⟩ (by decide)).2
    exact h (by decide)

/-! ## Source-configuration-walker lemmas -/

/-- Invariant of the walker state: the collected metrics carry pairwise
distinct identifiers, all of which have been recorded as seen. -/
def walkerInv (st : WalkerState) : Prop :=
  (st.1.map (·.statistic_id)).Nodup ∧
    ∀ m ∈ st.1, m.statistic_id ∈ st.2

lemma foldl_pres {α σ : Type} {P : σ → Prop} {f : σ → α → σ}
    (hf : ∀ s a, P s → P (f s a)) :
    ∀ (l : List α) (s : σ), P s → P (l.foldl f s) := by
  intro l
  induction l with
  | nil => exact fun s hs => hs
  | cons a l ih => exact fun s hs => ih _ (hf s a hs)

lemma addMetric_inv (st : WalkerState) (sid : Option String)
    (category : String) (h : walkerInv st) :
    walkerInv (addMetric st sid category) := by
  obtain ⟨h1, h2⟩ := h
  cases sid with
  | none => exact ⟨h1, h2⟩
  | some s =>
      by_cases hs : s = "" ∨ s ∈ st.2
      · have heq : addMetric st (some s) category = st := by
          simp [addMetric, hs]
        rw [heq]; exact ⟨h1, h2⟩
      · have heq : addMetric st (some s) category
            = (st.1 ++ [⟨category, s⟩], s :: st.2) := by
          simp only [addMetric, if_neg hs]
        rw [heq]
        push_neg at hs
        refine ⟨?_, ?_⟩
        · rw [List.map_append, List.nodup_append]
          refine ⟨h1, List.nodup_singleton _, ?_⟩
          intro x hx hy
          simp only [List.map_cons, List.map_nil, List.mem_singleton] at hy
          subst hy
          obtain ⟨m, hm, hms⟩ := List.mem_map.mp hx
          exact hs.2 (hms ▸ h2 m hm)
        · intro m hm
          rcases List.mem_append.mp hm with hm' | hm'
          · exact List.mem_cons_of_mem _ (h2 m hm')
          · simp only [List.mem_singleton] at hm'
            subst hm'
            exact List.mem_cons_self _ _

lemma addCo2Stat_inv (co2 : Bool) (st : WalkerState) (sid : Option String)
    (h : walkerInv st) : walkerInv (addCo2Stat co2 st sid) := by
  unfold addCo2Stat
  split
  · exact addMetric_inv _ _ _ h
  · exact h

lemma buildMetricsSourceStep_inv (co2 : Bool) (st : WalkerState)
    (source : EnergySource) (h : walkerInv st) :
    walkerInv (buildMetricsSourceStep co2 st source) := by
  unfold buildMetricsSourceStep
  apply addCo2Stat_inv
  split
  · apply foldl_pres (P := walkerInv)
      (fun s a hs => addCo2Stat_inv _ _ _
        (addMetric_inv _ _ _ (addMetric_inv _ _ _ hs)))
    apply foldl_pres (P := walkerInv)
      (fun s a hs => addCo2Stat_inv _ _ _
        (addMetric_inv _ _ _ (addMetric_inv _ _ _ hs)))
    exact h
  · split
    · exact addMetric_inv _ _ _ h
    · split
      · exact addMetric_inv _ _ _ (addMetric_inv _ _ _ h)
      · split
        · exact addMetric_inv _ _ _ (addMetric_inv _ _ _ h)
        · split
          · exact addMetric_inv _ _ _ (addMetric_inv _ _ _ h)
          · exact h

lemma build_metrics_inv (preferences : EnergyPreferences) (co2 pe : Bool) :
    ((_build_metrics preferences co2 pe).map (·.statistic_id)).Nodup := by
  unfold _build_metrics
  refine (foldl_pres (P := walkerInv)
    (fun s a hs => addCo2Stat_inv _ _ _ (addMetric_inv _ _ _ hs)) _ _
    (foldl_pres (P := walkerInv) (buildMetricsSourceStep_inv co2) _ _
      ⟨by simp, by simp⟩)).1

/-- Claim C6: for every energy-source configuration the walker output has
pairwise distinct statistic identifiers — an identifier is never added twice,
so two output entries with the same identifier are the same entry (the
first-seen category wins) — and the walker is deterministic: equal inputs
give equal output lists. -/
theorem walker_unique_ids (preferences : EnergyPreferences) (co2 pe : Bool) :
    ((_build_metrics preferences co2 pe).map (·.statistic_id)).Nodup ∧
    (∀ m₁ ∈ _build_metrics preferences co2 pe,
      ∀ m₂ ∈ _build_metrics preferences co2 pe,
        m₁.statistic_id = m₂.statistic_id → m₁ = m₂) ∧
    (∀ (preferences' : EnergyPreferences) (co2' pe' : Bool),
      preferences = preferences' → co2 = co2' → pe = pe' →
      _build_metrics preferences co2 pe =
        _build_metrics preferences' co2' pe') := by
  refine ⟨build_metrics_inv preferences co2 pe, ?_, ?_⟩
  · exact fun m₁ h₁ m₂ h₂ he =>
      List.inj_on_of_nodup_map (build_metrics_inv preferences co2 pe)
        h₁ h₂ he
  · rintro p' c' e' rfl rfl rfl
    rfl

/-- Witness for C6: on a configuration whose battery reuses the solar
identifier `"s"`, the walker emits `"s"` once with its first-seen category. -/
theorem walker_unique_ids_witness :
    _build_metrics prefs0 false false =
      [⟨"Production solaire", "s"⟩, ⟨"Charge batterie", "b"⟩] ∧
    (⟨"Production solaire", "s"⟩ : MetricDefinition) =
      (⟨"Production solaire", "s"⟩ : MetricDefinition) := by
  refine ⟨by decide, ?_⟩
  exact (walker_unique_ids prefs0 false false).2.1
    ⟨"Production solaire", "s"⟩ (by decide)
    ⟨"Production solaire", "s"⟩ (by decide) rfl

/-- Claim C10: the walker output never depends on the `price_enabled` flag:
the parameter is accepted but not consulted, so any two values give
syntactically the same computation. -/
theorem walker_ignores_price_flag (preferences : EnergyPreferences)
    (co2 pe₁ pe₂ : Bool) :
    _build_metrics preferences co2 pe₁ =
      _build_metrics preferences co2 pe₂ := rfl

/-! ## Calendar lemmas -/

lemma one_le_daysInMonth (y m : ℤ) (h1 : 1 ≤ m) (h2 : m ≤ 12) :
    1 ≤ daysInMonth y m := by
  unfold daysInMonth
  split_ifs <;> omega

lemma daysBeforeMonth_succ (y m : ℤ) (h1 : 1 ≤ m) (h2 : m ≤ 11) :
    daysBeforeMonth y (m + 1) = daysBeforeMonth y m + daysInMonth y m := by
  interval_cases m <;>
    cases hl : isLeap y <;>
      simp [daysBeforeMonth, daysInMonth, hl]

lemma leapCount_succ (y : ℤ) :
    y / 4 - y / 100 + y / 400 =
      (y - 1) / 4 - (y - 1) / 100 + (y - 1) / 400 +
        (if isLeap y then 1 else 0) := by
  by_cases hl : ((y % 4 = 0 ∧ y % 100 ≠ 0) ∨ y % 400 = 0)
  · rw [if_pos (by simpa [isLeap] using hl)]
    omega
  · rw [if_neg (by simpa [isLeap] using hl)]
    omega

lemma toOrdinal_nextDay (d : PyDate) (h : d.valid) :
    d.nextDay.toOrdinal = d.toOrdinal + 1 := by
  obtain ⟨y, m, day⟩ := d
  obtain ⟨h1, h2, h3, h4⟩ := h
  simp only at h1 h2 h3 h4
  unfold PyDate.nextDay
  simp only
  by_cases hd : day < daysInMonth y m
  · rw [if_pos hd]
    simp only [PyDate.toOrdinal]
    omega
  · rw [if_neg hd]
    have hdim : day = daysInMonth y m := by omega
    by_cases hm : m < 12
    · rw [if_pos hm]
      have hsucc := daysBeforeMonth_succ y m h1 (by omega)
      simp only [PyDate.toOrdinal]
      omega
    · rw [if_neg hm]
      have hm12 : m = 12 := by omega
      subst hm12
      have hday : day = 31 := by rw [hdim]; norm_num [daysInMonth]
      subst hday
      have hleap := leapCount_succ y
      simp only [PyDate.toOrdinal, daysBeforeMonth]
      norm_num
      omega

lemma nextDay_valid (d : PyDate) (h : d.valid) : d.nextDay.valid := by
  obtain ⟨y, m, day⟩ := d
  obtain ⟨h1, h2, h3, h4⟩ := h
  simp only at h1 h2 h3 h4
  unfold PyDate.nextDay
  simp only
  by_cases hd : day < daysInMonth y m
  · rw [if_pos hd]
    show 1 ≤ m ∧ m ≤ 12 ∧ 1 ≤ day + 1 ∧ day + 1 ≤ daysInMonth y m
    exact ⟨h1, h2, by omega, by omega⟩
  · rw [if_neg hd]
    by_cases hm : m < 12
    · rw [if_pos hm]
      show 1 ≤ m + 1 ∧ m + 1 ≤ 12 ∧ 1 ≤ (1 : ℤ) ∧
        1 ≤ daysInMonth y (m + 1)
      exact ⟨by omega, by omega, by omega,
        one_le_daysInMonth y (m + 1) (by omega) (by omega)⟩
    · rw [if_neg hm]
      show 1 ≤ (1 : ℤ) ∧ (1 : ℤ) ≤ 12 ∧ 1 ≤ (1 : ℤ) ∧
        1 ≤ daysInMonth (y + 1) 1
      refine ⟨by omega, by omega, by omega, ?_⟩
      norm_num [daysInMonth]

lemma addDays_valid_ordinal (d : PyDate) (h : d.valid) (n : ℕ) :
    (d.addDays n).valid ∧ (d.addDays n).toOrdinal = d.toOrdinal + n := by
  induction n with
  | zero => simpa [PyDate.addDays] using h
  | succ n ih =>
      have hstep : d.addDays (n + 1) = (d.addDays n).nextDay := by
        unfold PyDate.addDays
        rw [Function.iterate_succ_apply']
      rw [hstep]
      refine ⟨nextDay_valid _ ih.1, ?_⟩
      rw [toOrdinal_nextDay _ ih.1, ih.2]
      push_cast
      ring

/-! ## Period-resolver lemmas -/

lemma check_order_ok (s e s' e' : PyDate)
    (h : _check_order s e = .ok (s', e')) :
    s = s' ∧ e = e' ∧ s.toOrdinal ≤ e.toOrdinal := by
  unfold _check_order at h
  split at h
  · exact absurd h (by simp)
  · simp only [Except.ok.injEq, Prod.mk.injEq] at h
    exact ⟨h.1, h.2, by omega⟩

lemma check_order_of_le (s e : PyDate) (h : s.toOrdinal ≤ e.toOrdinal) :
    _check_order s e = .ok (s, e) := by
  unfold _check_order
  rw [if_neg (by omega)]

lemma resolve_dates_ok_le (period : String) (sd ed : Option PyDate)
    (now s e : PyDate)
    (h : _resolve_dates period sd ed now = .ok (s, e)) :
    s.toOrdinal ≤ e.toOrdinal := by
  unfold _resolve_dates at h
  rcases sd with _ | s₀
  · cases hds : _default_start period now with
    | error msg => rw [hds] at h; exact absurd h (by simp)
    | ok s₀ =>
        rw [hds] at h
        obtain ⟨hs, he, hle⟩ := check_order_ok _ _ _ _ h
        subst hs; subst he
        exact hle
  · obtain ⟨hs, he, hle⟩ := check_order_ok _ _ _ _ h
    subst hs; subst he
    exact hle

/-- Counterexample for C3: for the day period starting 2024-01-01 (offset
+3600 s) the resolver yields `query_end = query_start + 86400` but
`display_end - display_start = 86399`, so adding one day (86400 s) to the
display span does not reproduce the exclusive query end: the claimed
round-trip equation fails as stated. -/
theorem period_roundtrip_plus_day_cx :
    _resolve_period "day" (some ⟨2024, 1, 1⟩) none ⟨2024, 1, 1⟩ 3600 =
      .ok ⟨63839746800, 63839833200, 63839746800, 63839833199, "hour"⟩ ∧
    ¬ ((63839833200 : ℤ) =
        63839746800 + (63839833199 - 63839746800) + 86400) := by
  exact ⟨by decide, by decide⟩

/-- Claim C3 as amended: for every successful period resolution the exclusive
UTC query end equals the query start plus the display span plus one *second*
(the display end is the exclusive end minus one second, so the span already
contains all but one second of the last day), and the inclusive display end
is never before the display start. -/
theorem period_roundtrip_plus_second (period : String)
    (sd ed : Option PyDate) (now : PyDate) (off : ℤ) (r : ResolvedPeriod)
    (h : _resolve_period period sd ed now off = .ok r) :
    r.end_utc = r.start_utc + (r.display_end - r.display_start) + 1 ∧
    r.display_start ≤ r.display_end := by
  unfold _resolve_period at h
  cases hd : _resolve_dates period sd ed now with
  | error msg => rw [hd] at h; exact absurd h (by simp)
  | ok pr =>
      obtain ⟨s, e⟩ := pr
      rw [hd] at h
      have hle := resolve_dates_ok_le period sd ed now s e hd
      simp only [Except.ok.injEq] at h
      subst h
      simp only [_localize_date]
      constructor <;> omega

/-- Witness for C3: the amended equation on the 2024-01-01 day period. -/
theorem period_roundtrip_plus_second_witness :
    (63839833200 : ℤ) = 63839746800 + (63839833199 - 63839746800) + 1 ∧
    (63839746800 : ℤ) ≤ 63839833199 :=
  period_roundtrip_plus_second "day" (some ⟨2024, 1, 1⟩) none ⟨2024, 1, 1⟩
    3600 ⟨63839746800, 63839833200, 63839746800, 63839833199, "hour"⟩
    (by decide)

/-- Claim C5: with an explicit start and no explicit end, a month period
resolves to the last calendar day of the month of the start (leap-year aware:
February 2024 → day 29, February 2023 → day 28), a week period to start+6
days, and a day period to the start itself. -/
theorem resolved_end_defaults :
    (∀ s now : PyDate, s.valid →
      _resolve_dates "month" (some s) none now =
        .ok (s, ⟨s.year, s.month, daysInMonth s.year s.month⟩)) ∧
    _resolve_dates "month" (some ⟨2024, 2, 10⟩) none ⟨2024, 1, 1⟩ =
      .ok (⟨2024, 2, 10⟩, ⟨2024, 2, 29⟩) ∧
    _resolve_dates "month" (some ⟨2023, 2, 10⟩) none ⟨2024, 1, 1⟩ =
      .ok (⟨2023, 2, 10⟩, ⟨2023, 2, 28⟩) ∧
    (∀ s now : PyDate, s.valid →
      _resolve_dates "week" (some s) none now = .ok (s, s.addDays 6) ∧
      (s.addDays 6).toOrdinal = s.toOrdinal + 6) ∧
    (∀ s now : PyDate,
      _resolve_dates "day" (some s) none now = .ok (s, s)) := by
  refine ⟨?_, by decide, by decide, ?_, ?_⟩
  · intro s now hs
    obtain ⟨h1, h2, h3, h4⟩ := hs
    have hend : _default_end "month" s =
        ⟨s.year, s.month, daysInMonth s.year s.month⟩ := by
      simp [_default_end]
    show _check_order s (_default_end "month" s) = _
    rw [hend]
    apply check_order_of_le
    simp only [PyDate.toOrdinal]
    omega
  · intro s now hs
    have hord := (addDays_valid_ordinal s hs 6).2
    have hend : _default_end "week" s = s.addDays 6 := by
      simp [_default_end]
    refine ⟨?_, by rw [hord]; norm_num⟩
    show _check_order s (_default_end "week" s) = _
    rw [hend]
    apply check_order_of_le
    rw [hord]
    norm_num
  · intro s now
    have hend : _default_end "day" s = s := by simp [_default_end]
    show _check_order s (_default_end "day" s) = _
    rw [hend]
    exact check_order_of_le s s le_rfl

/-- Witness for C5: the general month rule on 2024-02-10 and the week rule
six days across the 2024→2025 year boundary. -/
theorem resolved_end_defaults_witness :
    _resolve_dates "month" (some ⟨2024, 2, 10⟩) none ⟨2024, 1, 1⟩ =
      .ok (⟨2024, 2, 10⟩, ⟨2024, 2, daysInMonth 2024 2⟩) ∧
    (PyDate.addDays ⟨2024, 12, 30⟩ 6).toOrdinal =
      (⟨2024, 12, 30⟩ : PyDate).toOrdinal + 6 :=
  ⟨resolved_end_defaults.1 ⟨2024, 2, 10⟩ ⟨2024, 1, 1⟩ (by decide),
    (resolved_end_defaults.2.2.2.1 ⟨2024, 12, 30⟩ ⟨2024, 1, 1⟩
      (by decide)).2⟩

/-- Counterexample for C8: the kind "fortnight" is not one of day/week/month, yet
date resolution with an explicit start date succeeds (defaulting the end to
the start) instead of failing: the unsupported-kind error is only raised on
the start-defaulting path. -/
theorem unsupported_period_cx :
    ("fortnight" ≠ "day" ∧ "fortnight" ≠ "week" ∧ "fortnight" ≠ "month") ∧
    _resolve_dates "fortnight" (some ⟨2024, 1, 1⟩) none ⟨2024, 1, 1⟩ =
      .ok (⟨2024, 1, 1⟩, ⟨2024, 1, 1⟩) := by
  exact ⟨by decide, by decide⟩

/-- Claim C8 as amended: resolution fails with the end-before-start error
whenever the (explicit) end date precedes the start date, for every period
kind; an unsupported period kind fails only when the start date must be
defaulted (no explicit start) — with an explicit start and no explicit end,
an unsupported kind succeeds with the end defaulted to the start. -/
theorem resolve_period_errors :
    (∀ (period : String) (s e now : PyDate), e.toOrdinal < s.toOrdinal →
      _resolve_dates period (some s) (some e) now =
        .error "La date de fin doit être postérieure à la date de début.") ∧
    (∀ (period : String) (ed : Option PyDate) (now : PyDate),
      period ≠ "day" → period ≠ "week" → period ≠ "month" →
      _resolve_dates period none ed now = .error "Période non supportée") ∧
    (∀ (period : String) (s now : PyDate),
      period ≠ "day" → period ≠ "week" → period ≠ "month" →
      _resolve_dates period (some s) none now = .ok (s, s)) := by
  refine ⟨?_, ?_, ?_⟩
  · intro period s e now hlt
    show _check_order s e = _
    unfold _check_order
    rw [if_pos hlt]
  · intro period ed now h1 h2 h3
    show (match (_default_start period now : Except String PyDate) with
      | .error msg => (.error msg : Except String (PyDate × PyDate))
      | .ok s => _check_order s
          (match ed with
            | some e => e
            | none => _default_end period s)) = _
    rw [show _default_start period now = .error "Période non supportée" by
      unfold _default_start; rw [if_neg h1, if_neg h2, if_neg h3]]
  · intro period s now h1 h2 h3
    have hend : _default_end period s = s := by
      unfold _default_end; rw [if_neg h1, if_neg h2, if_neg h3]
    show _check_order s (_default_end period s) = _
    rw [hend]
    exact check_order_of_le s s le_rfl

/-- Witness for C8: end 2023-12-31 before start 2024-01-01 errors, a start-
less `"fortnight"` request errors, and an explicit-start `"fortnight"`
request succeeds. -/
theorem resolve_period_errors_witness :
    _resolve_dates "month" (some ⟨2024, 1, 1⟩) (some ⟨2023, 12, 31⟩)
        ⟨2024, 1, 1⟩ =
      .error "La date de fin doit être postérieure à la date de début." ∧
    _resolve_dates "fortnight" none none ⟨2024, 1, 1⟩ =
      .error "Période non supportée" ∧
    _resolve_dates "fortnight" (some ⟨2024, 1, 1⟩) none ⟨2024, 1, 1⟩ =
      .ok (⟨2024, 1, 1⟩, ⟨2024, 1, 1⟩) :=
  ⟨resolve_period_errors.1 "month" ⟨2024, 1, 1⟩ ⟨2023, 12, 31⟩ ⟨2024, 1, 1⟩
      (by decide),
    resolve_period_errors.2.1 "fortnight" none ⟨2024, 1, 1⟩ (by decide)
      (by decide) (by decide),
    resolve_period_errors.2.2 "fortnight" ⟨2024, 1, 1⟩ ⟨2024, 1, 1⟩
      (by decide) (by decide) (by decide)⟩

/-- Claim C9: the statistics bucket is chosen by (lowercased) period type
first — day → hour, week → day, month → day — and only an absent or
unrecognized period type falls back to the span rule: span ≤ 2 days → hour,
span ≤ 35 days → day, otherwise month. -/
theorem bucket_selection :
    (∀ s e : ℤ,
      _select_bucket (some "day") s e = "hour" ∧
      _select_bucket (some "week") s e = "day" ∧
      _select_bucket (some "month") s e = "day") ∧
    (∀ (p : Option String) (s e : ℤ),
      normalizePeriod p ≠ "day" → normalizePeriod p ≠ "week" →
      normalizePeriod p ≠ "month" →
      _select_bucket p s e =
        if e - s ≤ 2 * 86400 then "hour"
        else if e - s ≤ 35 * 86400 then "day" else "month") ∧
    (∀ s e : ℤ, normalizePeriod none = "" ∧
      _select_bucket none s e =
        if e - s ≤ 2 * 86400 then "hour"
        else if e - s ≤ 35 * 86400 then "day" else "month") := by
  have hfall : ∀ (p : Option String) (s e : ℤ),
      normalizePeriod p ≠ "day" → normalizePeriod p ≠ "week" →
      normalizePeriod p ≠ "month" →
      _select_bucket p s e =
        if e - s ≤ 2 * 86400 then "hour"
        else if e - s ≤ 35 * 86400 then "day" else "month" := by
    intro p s e h1 h2 h3
    unfold _select_bucket
    rw [if_neg h1, if_neg h2, if_neg h3]
  refine ⟨?_, hfall, ?_⟩
  · intro s e
    refine ⟨?_, ?_, ?_⟩ <;> unfold _select_bucket
    · rw [show normalizePeriod (some "day") = "day" from by decide]
      simp
    · rw [show normalizePeriod (some "week") = "week" from by decide]
      simp
    · rw [show normalizePeriod (some "month") = "month" from by decide]
      simp
  · intro s e
    exact ⟨by decide, hfall none s e (by decide) (by decide) (by decide)⟩

/-- Witness for C9: an unrecognized period type of ten days falls back to
the day bucket. -/
theorem bucket_selection_witness :
    _select_bucket (some "fortnight") 0 864000 = "day" := by
  have h := bucket_selection.2.1 (some "fortnight") 0 864000
    (by decide) (by decide) (by decide)
  rw [h]
  decide

end EnergyPdfReport
